import Mathlib

/-!
# Verification of docker-registry-cleaner (src/main.go)

Shallow embedding of the retention-enforcement tool in `src/main.go`.

Modelling conventions:
* Go `time.Time` instants are modelled as `Int` (an order-preserving
  encoding, e.g. nanoseconds since an epoch); the zero `time.Time` value
  produced by `json.Unmarshal` when a `created` field is absent is `0`,
  and `a.After(b)` is `b < a`.
* Network effects are modelled by explicit environments: each HTTP call
  the code makes is a field of an environment record, holding either a
  transport failure (`Client.Do` returning a non-nil error) or a response
  with a status code and a body.
* Response bodies are modelled as an abstract JSON value type `Json`.
  Strings inside JSON are partitioned by how the Go decoders treat their
  text: `str` (neither a valid JSON document nor an RFC3339 time),
  `timeStr s t` (text `s` parses as the RFC3339 instant `t`), and
  `jsonStr s j` (text `s` parses as the JSON document `j`); these
  classes are disjoint for the texts that occur in practice.  Decoders
  for the Go struct types mirror `encoding/json`: unknown object fields
  are ignored, a missing field leaves the Go zero value, `null` is a
  no-op, a type mismatch is an error, and for duplicate keys the last
  (case-insensitive) match wins.
* `sort.Slice` is not a deterministic function of its input (Go
  documents it as not stable), so it is embedded by its documented
  contract `sortSliceSpec`: the output is a permutation of the input
  that is nonincreasing in `Created` (the comparison passed at
  src/main.go:326-328 is `images[i].Created.After(images[j].Created)`).
  Functions that the Go code runs after the in-place sort take the
  chosen output as an explicit `sortImpl` parameter constrained by
  `sortSliceSpec` in the theorems.
* Go string/slice indexing `x[k:]` and `s[:12]` panics when the bounds
  are violated; panics are modelled as `Option`/dedicated result
  constructors.  Digests are ASCII, so Go's byte length agrees with
  `String.length`.
-/

/-- Go `time.Time`, order-preserved; the zero `time.Time` is `0`. -/
abbrev GoTime := Int

/-- `a.After(b)` for Go times. -/
def timeAfter (a b : GoTime) : Bool := decide (b < a)

/-- Abstract JSON documents appearing as response bodies.  See the
string-classification convention in the module docstring. -/
inductive Json where
  | null
  | jbool (b : Bool)
  | num (n : Int)
  | str (s : String)
  | timeStr (s : String) (t : GoTime)
  | jsonStr (s : String) (j : Json)
  | arr (elts : List Json)
  | obj (fields : List (String × Json))
deriving Repr

/-- ASCII case folding of one character's codepoint (the JSON keys of
the registry API are ASCII). -/
def foldCase (n : Nat) : Nat := if 65 ≤ n ∧ n ≤ 90 then n + 32 else n

/-- Case-insensitive string equality, as `encoding/json` matches object
keys against struct field tags. -/
def keyEq (a b : String) : Bool :=
  a.data.map (fun c => foldCase c.toNat) == b.data.map (fun c => foldCase c.toNat)

/-- Field lookup as `encoding/json` performs it for the struct tags used
in src/main.go: keys match case-insensitively and, when several keys
match, the value decoded last wins. -/
def lookupField (fields : List (String × Json)) (key : String) : Option Json :=
  ((fields.filter fun p => keyEq p.1 key).getLast?).map (·.2)

/-- `json.Unmarshal` of a JSON value into a Go `int` field. -/
def decodeGoInt : Json → Except Unit Int
  | .num n => .ok n
  | .null => .ok 0
  | _ => .error ()

/-- `json.Unmarshal` of a JSON value into a Go `string` field. -/
def decodeGoString : Json → Except Unit String
  | .str s => .ok s
  | .timeStr s _ => .ok s
  | .jsonStr s _ => .ok s
  | .null => .ok ""
  | _ => .error ()

/-- `json.Unmarshal` of a JSON value into a Go `time.Time` field:
only an RFC3339 string succeeds; `null` is a no-op leaving the zero
time. -/
def decodeTime : Json → Except Unit GoTime
  | .timeStr _ t => .ok t
  | .null => .ok 0
  | _ => .error ()

/-- Decoding the inner JSON of a history entry into `V1Compatibility`
(src/main.go:60-62, struct with a single `created time.Time` field):
when the object lacks a `created` key the field keeps its zero value. -/
def decodeV1Compat : Json → Except Unit GoTime
  | .obj fs =>
    match lookupField fs "created" with
    | none => .ok 0
    | some v => decodeTime v
  | .null => .ok 0
  | _ => .error ()

/-- `json.Unmarshal([]byte(historyEntry), &v1Compat)` at
src/main.go:187: the history entry is a string; it must itself be a
valid JSON document, which is then decoded as `V1Compatibility`. -/
def unmarshalV1CompatStr : Json → Except Unit GoTime
  | .jsonStr _ j => decodeV1Compat j
  | _ => .error ()

/-- Decoding one element of the `history` array of `ManifestResponse`
(src/main.go:37-39): an object whose `v1Compatibility` field is a
string; returns that string (as its classified `Json` value). -/
def decodeHistEntry : Json → Except Unit Json
  | .obj fs =>
    match lookupField fs "v1Compatibility" with
    | none => .ok (.str "")
    | some v =>
      match v with
      | .str s => .ok (.str s)
      | .timeStr s t => .ok (.timeStr s t)
      | .jsonStr s j => .ok (.jsonStr s j)
      | .null => .ok (.str "")
      | _ => .error ()
  | .null => .ok (.str "")
  | _ => .error ()

/-- Decoding `ManifestResponse` (src/main.go:35-40): `schemaVersion`
must be an int if present, `history` an array of history entries;
returns the list of `v1Compatibility` strings. -/
def decodeManifestResponse (j : Json) : Except Unit (List Json) :=
  match j with
  | .obj fs =>
    match (match lookupField fs "schemaVersion" with
           | none => Except.ok 0
           | some v => decodeGoInt v) with
    | .error e => .error e
    | .ok _ =>
      match lookupField fs "history" with
      | none => .ok []
      | some .null => .ok []
      | some (.arr xs) => xs.mapM decodeHistEntry
      | some _ => .error ()
  | .null => .ok []
  | _ => .error ()

/-- Decoding `ManifestV2Response` (src/main.go:43-49): returns
`Config.Digest` (empty string when the `config` or `digest` field is
absent). -/
def decodeManifestV2 (j : Json) : Except Unit String :=
  match j with
  | .obj fs =>
    match (match lookupField fs "schemaVersion" with
           | none => Except.ok 0
           | some v => decodeGoInt v) with
    | .error e => .error e
    | .ok _ =>
      match (match lookupField fs "mediaType" with
             | none => Except.ok ""
             | some v => decodeGoString v) with
      | .error e => .error e
      | .ok _ =>
        match lookupField fs "config" with
        | none => .ok ""
        | some .null => .ok ""
        | some (.obj cfs) =>
          match lookupField cfs "digest" with
          | none => .ok ""
          | some dv => decodeGoString dv
        | some _ => .error ()
  | .null => .ok ""
  | _ => .error ()

/-- Whether a JSON value decodes into a Go `string` (used for the
values of the `Labels` map). -/
def isGoStringVal : Json → Bool
  | .str _ => true
  | .timeStr _ _ => true
  | .jsonStr _ _ => true
  | .null => true
  | _ => false

/-- Decoding the `Labels map[string]string` field of `ConfigResponse`. -/
def decodeLabelsMap : Json → Except Unit Unit
  | .obj fs => if fs.all fun p => isGoStringVal p.2 then .ok () else .error ()
  | .null => .ok ()
  | _ => .error ()

/-- Decoding the inner `Config` struct of `ConfigResponse`
(src/main.go:54-56). -/
def decodeConfigInner : Json → Except Unit Unit
  | .obj fs =>
    match lookupField fs "Labels" with
    | none => .ok ()
    | some v => decodeLabelsMap v
  | .null => .ok ()
  | _ => .error ()

/-- Decoding `ConfigResponse` (src/main.go:52-57): returns `Created`
(zero when the `created` field is absent). -/
def decodeConfigResponse (j : Json) : Except Unit GoTime :=
  match j with
  | .obj fs =>
    match (match lookupField fs "created" with
           | none => Except.ok (0 : GoTime)
           | some v => decodeTime v) with
    | .error e => .error e
    | .ok t =>
      match lookupField fs "config" with
      | none => .ok t
      | some cv =>
        match decodeConfigInner cv with
        | .ok _ => .ok t
        | .error e => .error e
  | .null => .ok 0
  | _ => .error ()

/-- Outcome of one HTTP call: either `Client.Do` returns a non-nil
error (transport failure) or a response arrives, with a status code and
a body (`none` = body is not a valid JSON document). -/
inductive HttpOutcome where
  | failure
  | response (status : Nat) (body : Option Json)
deriving Repr

/-- Environment for one `GetImageCreated` call (src/main.go:162-231):
the outcomes of the schema-v1 manifest GET, the schema-v2 manifest GET,
the config-blob GET (per digest), and the wall clock read by
`time.Now()` at the fallback. -/
structure ImageCreatedEnv where
  v1Resp : HttpOutcome
  v2Resp : HttpOutcome
  blobResp : String → HttpOutcome
  now : GoTime

/-- The schema-v1 branch of `GetImageCreated` (src/main.go:183-191):
yields a time exactly when the response is 200, decodes as a manifest
with non-empty history, and the first history entry unmarshals as
`V1Compatibility`. -/
def v1Extract (status : Nat) (body : Option Json) : Option GoTime :=
  if status = 200 then
    match body with
    | some j =>
      match decodeManifestResponse j with
      | .ok (h :: _) =>
        match unmarshalV1CompatStr h with
        | .ok t => some t
        | .error _ => none
      | .ok [] => none
      | .error _ => none
    | none => none
  else none

/-- The schema-v2 branch of `GetImageCreated` (src/main.go:210-226):
yields a time exactly when the v2 manifest response is 200, names a
non-empty config digest, and the blob fetch returns 200 with a body
decoding as `ConfigResponse`.  A blob transport failure falls through
to the synthetic fallback (src/main.go:216 checks `err == nil`). -/
def v2Extract (blob : String → HttpOutcome) (status : Nat) (body : Option Json) :
    Option GoTime :=
  if status = 200 then
    match body with
    | some j =>
      match decodeManifestV2 j with
      | .ok dg =>
        if dg = "" then none
        else
          match blob dg with
          | .failure => none
          | .response s3 b3 =>
            if s3 = 200 then
              match b3 with
              | some j3 =>
                match decodeConfigResponse j3 with
                | .ok t => some t
                | .error _ => none
              | none => none
            else none
      | .error _ => none
    | none => none
  else none

/-- `GetImageCreated` (src/main.go:162-231).  A transport failure of
the v1 manifest request (line 177-180), or of the v2 manifest request
when it is reached (line 204-207), returns an error; when both requests
receive responses, the cascade v1 → v2+blob → `time.Now()` runs. -/
def getImageCreated (env : ImageCreatedEnv) : Except Unit GoTime :=
  match env.v1Resp with
  | .failure => .error ()
  | .response s1 b1 =>
    match v1Extract s1 b1 with
    | some t => .ok t
    | none =>
      match env.v2Resp with
      | .failure => .error ()
      | .response s2 b2 =>
        match v2Extract env.blobResp s2 b2 with
        | some t => .ok t
        | none => .ok env.now

/-- `ImageInfo` (src/main.go:65-70). -/
structure ImageInfo where
  repository : String
  tag : String
  digest : String
  created : GoTime
deriving DecidableEq, Repr

/-- Environment for one `CleanupRepository` call: the `GetTags` result,
and the per-tag `GetManifestDigest` / `GetImageCreated` results, the
wall clock used as the orchestrator's fallback (src/main.go:312), and
the per-digest `DeleteManifest` result. -/
structure CleanupEnv where
  tags : Except String (List String)
  digest : String → Except String String
  created : String → Except String GoTime
  now : GoTime
  delete : String → Except String Unit

/-- `true` on `Except.ok`. -/
def isOkB {ε α : Type} : Except ε α → Bool
  | .ok _ => true
  | .error _ => false

/-- The per-tag resolution loop of `CleanupRepository`
(src/main.go:302-323): a tag whose digest lookup fails is skipped
(`continue`); a failed timestamp lookup falls back to `time.Now()`
(line 312); successful tags are appended in discovery order. -/
def resolveImages (repo : String) (env : CleanupEnv) (tags : List String) :
    List ImageInfo :=
  tags.filterMap fun tag =>
    match env.digest tag with
    | .error _ => none
    | .ok d =>
      let c : GoTime :=
        match env.created tag with
        | .ok t => t
        | .error _ => env.now
      some { repository := repo, tag := tag, digest := d, created := c }

/-- The documented contract of the in-place
`sort.Slice(images, func(i, j) { return images[i].Created.After(images[j].Created) })`
at src/main.go:326-328: the result is a permutation of the input that is
nonincreasing in `Created`.  `sort.Slice` guarantees nothing further
(in particular, no stability). -/
def sortSliceSpec (input output : List ImageInfo) : Prop :=
  output.Perm input ∧ output.Sorted fun a b => b.created ≤ a.created

/-- Stability of a sort run: every pair of equal-`Created` images keeps
its input relative order in the output. -/
def stablePairs (input output : List ImageInfo) : Prop :=
  ∀ i j : Fin input.length, (i : Nat) < (j : Nat) →
    (input.get i).created = (input.get j).created →
    ∃ k m : Fin output.length, (k : Nat) < (m : Nat) ∧
      output.get k = input.get i ∧ output.get m = input.get j

/-- Go slicing `l[k:]` for a slice of length `l.length`: panics
(`none`) unless `0 ≤ k ≤ len`. -/
def goSliceFrom {α : Type} (k : Int) (l : List α) : Option (List α) :=
  if 0 ≤ k ∧ k ≤ (l.length : Int) then some (l.drop k.toNat) else none

/-- The images `CleanupRepository` classifies as kept: those at sorted
index `i < keepLast` (the status loop at src/main.go:331-338; the rest
are `images[keepLast:]`, deleted). -/
def retentionKeep (keepLast : Int) (sorted : List ImageInfo) : List ImageInfo :=
  sorted.take keepLast.toNat

/-- The deletion loop of `CleanupRepository` (src/main.go:346-354).
For each image, the progress message first slices `img.Digest[:12]`
(line 348), which panics when the digest has fewer than 12 bytes —
before `DeleteManifest` is called; otherwise `DeleteManifest` runs and
its error, if any, is only reported (line 349-353).  Returns the list
of images actually attempted, paired with the success of each attempt,
and whether the loop panicked. -/
def deletePhase (del : String → Except String Unit) :
    List ImageInfo → List (ImageInfo × Bool) × Bool
  | [] => ([], false)
  | img :: rest =>
    if 12 ≤ img.digest.length then
      let ok := isOkB (del img.digest)
      let r := deletePhase del rest
      ((img, ok) :: r.1, r.2)
    else
      ([], true)

/-- Result of one `CleanupRepository` call. -/
inductive CleanupResult where
  /-- `GetTags` failed; the error is returned (src/main.go:290-292). -/
  | errTags
  /-- `len(tags) <= keepLast`: repository skipped (src/main.go:294-297). -/
  | skipped
  /-- the slice expression `images[keepLast:]` panicked (src/main.go:342). -/
  | sliceOOB
  /-- the pipeline reached the retention step: `keep` are the images
  classified for keeping, `toDelete` the planned deletions,
  `attempted` the deletions actually attempted with their success, and
  `panicked` whether the digest-prefix slice panicked mid-loop. -/
  | run (keep toDelete : List ImageInfo) (attempted : List (ImageInfo × Bool))
      (panicked : Bool)
deriving DecidableEq, Repr

/-- `CleanupRepository` (src/main.go:286-358), with the output of the
in-place `sort.Slice` supplied by `sortImpl` (constrained by
`sortSliceSpec` in the theorems). -/
def cleanupRepositoryWith (repo : String) (env : CleanupEnv) (keepLast : Int)
    (sortImpl : List ImageInfo → List ImageInfo) : CleanupResult :=
  match env.tags with
  | .error _ => .errTags
  | .ok tags =>
    if (tags.length : Int) ≤ keepLast then .skipped
    else
      let images := resolveImages repo env tags
      let sorted := sortImpl images
      if keepLast < (images.length : Int) then
        match goSliceFrom keepLast sorted with
        | none => .sliceOOB
        | some toDelete =>
          let r := deletePhase env.delete toDelete
          .run (retentionKeep keepLast sorted) toDelete r.1 r.2
      else
        .run sorted [] [] false

/-- Whether a repository's processing ended in a Go panic (which, with
no `recover` in src/main.go, aborts the whole process). -/
def resultPanicked : CleanupResult → Bool
  | .sliceOOB => true
  | .run _ _ _ p => p
  | _ => false

/-- The per-repository loop of `main` (src/main.go:391-395): a
`CleanupRepository` error is printed and the loop continues; a panic
propagates and kills the run. -/
def runAll (cleanup : String → CleanupResult) : List String → List (String × CleanupResult)
  | [] => []
  | r :: rest =>
    let res := cleanup r
    if resultPanicked res then [(r, res)]
    else (r, res) :: runAll cleanup rest

/-- Error message for a non-200 catalog response (src/main.go:107-109):
built from the status code only; the response body is not read. -/
def getRepositoriesErrMsg (status : Nat) : String :=
  "получен статус " ++ toString status ++ " при запросе репозиториев"

/-- The status handling of `GetRepositories` (src/main.go:107-116);
`repos` stands for the decoded body of a 200 response. -/
def getRepositoriesResult (status : Nat) (repos : List String) :
    Except String (List String) :=
  if status = 200 then .ok repos else .error (getRepositoriesErrMsg status)

/-- Error message for a non-200 manifest HEAD response
(src/main.go:149-151): built from the status code and coordinates only;
the response body is not read. -/
def getManifestDigestErrMsg (status : Nat) (repo tag : String) : String :=
  "получен статус " ++ toString status ++ " при запросе манифеста для "
    ++ repo ++ ":" ++ tag

/-- `GetManifestDigest` (src/main.go:141-159): on a 200 response the
`Docker-Content-Digest` header value is returned as long as it is
non-empty — no other shape or length requirement is imposed. -/
def getManifestDigest (status : Nat) (header : String) (repo tag : String) :
    Except String String :=
  if status = 200 then
    if header = "" then .error ("digest не найден для " ++ repo ++ ":" ++ tag)
    else .ok header
  else .error (getManifestDigestErrMsg status repo tag)

/-- The `switch resp.StatusCode` of `DeleteManifest`
(src/main.go:261-282): the 405 branch returns a fixed message without
the body; 404/401/403 and the default branch append the body text. -/
def classifyDeleteError (status : Nat) (body : String) : String :=
  if status = 405 then
    "удаление не поддерживается Registry (статус 405)"
  else if status = 404 then
    "манифест не найден (статус 404): " ++ body
  else if status = 401 then
    "ошибка авторизации (статус 401): " ++ body
  else if status = 403 then
    "доступ запрещен (статус 403): " ++ body
  else
    "получен статус " ++ toString status ++ " при удалении манифеста: " ++ body

/-- `DeleteManifest`'s response handling (src/main.go:254-282): 202 and
200 succeed; any other status is classified by `classifyDeleteError`. -/
def deleteManifestResult (status : Nat) (body : String) : Except String Unit :=
  if status = 202 ∨ status = 200 then .ok ()
  else .error (classifyDeleteError status body)

/-! ## Concrete inputs used by witnesses and counterexamples -/

/-- Environment where the schema-v1 manifest request fails at transport
level (`Client.Do` returns an error, src/main.go:177-180). -/
def envTransportFail : ImageCreatedEnv :=
  { v1Resp := .failure, v2Resp := .failure, blobResp := fun _ => .failure,
    now := 0 }

/-- Environment where both manifest requests receive (non-200)
responses. -/
def envBothRespond : ImageCreatedEnv :=
  { v1Resp := .response 404 none, v2Resp := .response 404 none,
    blobResp := fun _ => .failure, now := 5 }

/-- A newer concrete image. -/
def imgNew : ImageInfo :=
  { repository := "r", tag := "new", digest := "sha256:new0000000000", created := 5 }

/-- An older concrete image. -/
def imgOld : ImageInfo :=
  { repository := "r", tag := "old", digest := "sha256:old0000000000", created := 3 }

/-! ## C1 -/

/-- C1 (counterexample): `GetImageCreated` is not total — when the
schema-v1 manifest request fails at transport level it returns an error
(src/main.go:178-180) rather than a timestamp. -/
theorem c1_counterexample : getImageCreated envTransportFail = .error () := rfl

/-- C1 (amended): whenever the manifest requests receive HTTP responses
(any status, any body), `GetImageCreated` returns a timestamp; and when
neither the schema-v1 nor the schema-v2 strategy yields a creation
time, it returns the current wall-clock time. -/
theorem c1_total_when_responses (env : ImageCreatedEnv) (s1 s2 : Nat)
    (b1 b2 : Option Json)
    (h1 : env.v1Resp = .response s1 b1) (h2 : env.v2Resp = .response s2 b2) :
    (∃ t, getImageCreated env = .ok t) ∧
    (v1Extract s1 b1 = none → v2Extract env.blobResp s2 b2 = none →
      getImageCreated env = .ok env.now) := by
  simp only [getImageCreated, h1, h2]
  constructor
  · cases hv1 : v1Extract s1 b1 with
    | some t => exact ⟨t, rfl⟩
    | none =>
      cases hv2 : v2Extract env.blobResp s2 b2 with
      | some t => exact ⟨t, rfl⟩
      | none => exact ⟨env.now, rfl⟩
  · intro hv1 hv2
    rw [hv1, hv2]

/-- C1 witness. -/
theorem c1_total_when_responses_witness :
    (∃ t, getImageCreated envBothRespond = .ok t) ∧
    (v1Extract 404 none = none →
      v2Extract envBothRespond.blobResp 404 none = none →
      getImageCreated envBothRespond = .ok envBothRespond.now) :=
  c1_total_when_responses envBothRespond 404 404 none none rfl rfl

/-! ## C2 -/

/-- C2: when `keepLast` is positive and fewer than the number of
resolved images, the retention split keeps exactly `keepLast` images,
deletes exactly `n - keepLast`, and every kept image's `Created` is at
least every deleted image's `Created` (under the nonincreasing sort
contract of src/main.go:326-344). -/
theorem c2_retention_partition (images sorted : List ImageInfo) (keepLast : Int)
    (hsort : sortSliceSpec images sorted) (hpos : 0 < keepLast)
    (hlen : keepLast < (images.length : Int)) :
    ∃ toDelete, goSliceFrom keepLast sorted = some toDelete ∧
      toDelete.length = images.length - keepLast.toNat ∧
      (retentionKeep keepLast sorted).length = keepLast.toNat ∧
      ∀ a ∈ retentionKeep keepLast sorted, ∀ b ∈ toDelete,
        b.created ≤ a.created := by
  obtain ⟨hperm, hsorted⟩ := hsort
  have hle : sorted.length = images.length := hperm.length_eq
  refine ⟨sorted.drop keepLast.toNat, ?_, ?_, ?_, ?_⟩
  · unfold goSliceFrom
    rw [if_pos ⟨le_of_lt hpos, by omega⟩]
  · rw [List.length_drop]
    omega
  · unfold retentionKeep
    rw [List.length_take]
    omega
  · intro a ha b hb
    have hpw : List.Pairwise (fun a b => b.created ≤ a.created)
        (sorted.take keepLast.toNat ++ sorted.drop keepLast.toNat) := by
      rw [List.take_append_drop]
      exact hsorted
    exact (List.pairwise_append.mp hpw).2.2 a ha b hb

/-- C2 witness. -/
theorem c2_retention_partition_witness :
    ∃ toDelete, goSliceFrom 1 [imgNew, imgOld] = some toDelete ∧
      toDelete.length = [imgNew, imgOld].length - (1 : Int).toNat ∧
      (retentionKeep 1 [imgNew, imgOld]).length = (1 : Int).toNat ∧
      ∀ a ∈ retentionKeep 1 [imgNew, imgOld], ∀ b ∈ toDelete,
        b.created ≤ a.created :=
  c2_retention_partition [imgNew, imgOld] [imgNew, imgOld] 1
    ⟨by decide, by decide⟩ (by decide) (by decide)

/-! ## C3 -/

/-- C3: when at most `keepLast` images resolved, the repository is
either skipped outright (src/main.go:294-297) or reaches the retention
step with an empty `Delete` set and no deletion attempted
(src/main.go:341-342). -/
theorem c3_no_delete_when_at_most_keep (repo : String) (env : CleanupEnv)
    (keepLast : Int) (sortImpl : List ImageInfo → List ImageInfo)
    (tags : List String) (htags : env.tags = .ok tags)
    (hfew : ((resolveImages repo env tags).length : Int) ≤ keepLast) :
    cleanupRepositoryWith repo env keepLast sortImpl = .skipped ∨
    ∃ keep, cleanupRepositoryWith repo env keepLast sortImpl =
      .run keep [] [] false := by
  unfold cleanupRepositoryWith
  rw [htags]
  by_cases ht : (tags.length : Int) ≤ keepLast
  · left
    simp [ht]
  · right
    refine ⟨sortImpl (resolveImages repo env tags), ?_⟩
    have hnlt : ¬ (keepLast < ((resolveImages repo env tags).length : Int)) := by
      omega
    simp [ht, hnlt]

/-- Cleanup environment for the C3 witness: three tags, the digest of
`c` fails to resolve, so only two images enter the plan while
`keepLast = 2`. -/
def envThreeTags : CleanupEnv :=
  { tags := .ok ["a", "b", "c"],
    digest := fun t => if t = "c" then .error "404" else .ok ("sha256:" ++ t ++ "00000000000"),
    created := fun t => if t = "a" then .ok 5 else .ok 3,
    now := 9,
    delete := fun _ => .ok () }

/-- C3 witness. -/
theorem c3_no_delete_when_at_most_keep_witness :
    cleanupRepositoryWith "r" envThreeTags 2 id = .skipped ∨
    ∃ keep, cleanupRepositoryWith "r" envThreeTags 2 id = .run keep [] [] false :=
  c3_no_delete_when_at_most_keep "r" envThreeTags 2 id ["a", "b", "c"] rfl
    (by decide)

/-! ## C4 -/

/-- Cleanup environment with a single fully-resolving tag. -/
def envOneTag : CleanupEnv :=
  { tags := .ok ["t"],
    digest := fun _ => .ok "sha256:abcdef012345",
    created := fun _ => .ok 1,
    now := 9,
    delete := fun _ => .ok () }

/-- C4 (counterexample): with `keepLast = -1` and one (non-empty) image
list, the retention step does not complete: the slice expression
`images[keepLast:]` at src/main.go:342 panics with a slice-bounds
violation, so a non-positive `keepLast` is not supported in general. -/
theorem c4_counterexample :
    cleanupRepositoryWith "r" envOneTag (-1) id = .sliceOOB := rfl

/-- C4 (amended): `keepLast = 0` does degenerate to "delete everything"
— the retention step completes with every resolved image in the
`Delete` set — but every `keepLast < 0` makes `images[keepLast:]` panic
(slice bounds out of range) instead of completing. -/
theorem c4_zero_deletes_all_negative_panics (repo : String) (env : CleanupEnv)
    (keepLast : Int) (sortImpl : List ImageInfo → List ImageInfo)
    (tags : List String) (htags : env.tags = .ok tags)
    (hsort : sortSliceSpec (resolveImages repo env tags)
      (sortImpl (resolveImages repo env tags))) :
    (keepLast < 0 → cleanupRepositoryWith repo env keepLast sortImpl = .sliceOOB) ∧
    (keepLast = 0 → 0 < (resolveImages repo env tags).length →
      ∃ att p, cleanupRepositoryWith repo env keepLast sortImpl =
          .run [] (sortImpl (resolveImages repo env tags)) att p ∧
        (sortImpl (resolveImages repo env tags)).Perm
          (resolveImages repo env tags)) := by
  constructor
  · intro hneg
    unfold cleanupRepositoryWith
    rw [htags]
    have h1 : ¬ ((tags.length : Int) ≤ keepLast) := by
      have : (0 : Int) ≤ (tags.length : Int) := by positivity
      omega
    have h2 : keepLast < ((resolveImages repo env tags).length : Int) := by
      have : (0 : Int) ≤ ((resolveImages repo env tags).length : Int) := by positivity
      omega
    have h3 : goSliceFrom keepLast (sortImpl (resolveImages repo env tags)) =
        (none : Option (List ImageInfo)) := by
      unfold goSliceFrom
      rw [if_neg]
      intro hc
      omega
    simp [h1, h2, h3]
  · intro h0 hpos
    subst h0
    unfold cleanupRepositoryWith
    rw [htags]
    have hresle : (resolveImages repo env tags).length ≤ tags.length :=
      List.length_filterMap_le _ _
    have h1 : ¬ ((tags.length : Int) ≤ (0 : Int)) := by
      omega
    have h2 : (0 : Int) < ((resolveImages repo env tags).length : Int) := by
      omega
    have hperm := hsort.1
    have h3 : goSliceFrom (0 : Int) (sortImpl (resolveImages repo env tags)) =
        some (sortImpl (resolveImages repo env tags)) := by
      unfold goSliceFrom
      rw [if_pos ⟨le_refl 0, by positivity⟩]
      simp
    refine ⟨(deletePhase env.delete (sortImpl (resolveImages repo env tags))).1,
      (deletePhase env.delete (sortImpl (resolveImages repo env tags))).2, ?_, hperm⟩
    simp [h1, h2, h3, retentionKeep]

/-- C4 witness: the same environment exercises both halves — `-1`
panics, `0` deletes the single image. -/
theorem c4_zero_deletes_all_negative_panics_witness :
    cleanupRepositoryWith "r" envOneTag (-1) id = .sliceOOB ∧
    ∃ att p, cleanupRepositoryWith "r" envOneTag 0 id =
        .run [] (id (resolveImages "r" envOneTag ["t"])) att p ∧
      (id (resolveImages "r" envOneTag ["t"])).Perm
        (resolveImages "r" envOneTag ["t"]) :=
  ⟨(c4_zero_deletes_all_negative_panics "r" envOneTag (-1) id ["t"] rfl
      ⟨by decide, by decide⟩).1 (by decide),
   (c4_zero_deletes_all_negative_panics "r" envOneTag 0 id ["t"] rfl
      ⟨by decide, by decide⟩).2 rfl (by decide)⟩

/-! ## C5 -/

/-- First of two images with tied timestamps. -/
def imgTieA : ImageInfo :=
  { repository := "r", tag := "a", digest := "sha256:aaaaaaaaaaaa", created := 5 }

/-- Second of two images with tied timestamps. -/
def imgTieB : ImageInfo :=
  { repository := "r", tag := "b", digest := "sha256:bbbbbbbbbbbb", created := 5 }

/-- C5 (counterexample): the sort at src/main.go:326-328 is
`sort.Slice`, whose contract guarantees only a nonincreasing
permutation and expressly not stability; the reversed order of two
equal-timestamp images satisfies that contract while breaking the
claimed input-order preservation. -/
theorem c5_counterexample :
    sortSliceSpec [imgTieA, imgTieB] [imgTieB, imgTieA] ∧
    ¬ stablePairs [imgTieA, imgTieB] [imgTieB, imgTieA] := by
  constructor
  · exact ⟨by decide, by decide⟩
  · intro hstab
    have := hstab ⟨0, by decide⟩ ⟨1, by decide⟩ (by decide) (by decide)
    revert this
    decide

/-- C5 (amended): `sort.Slice` guarantees only a permutation
nonincreasing in `Created`; the relative order of equal-timestamp
images is not guaranteed.  When all timestamps are distinct the sorted
output is uniquely determined, so the `Keep`/`Delete` partition is
deterministic. -/
theorem c5_distinct_created_unique_output (l l₁ l₂ : List ImageInfo)
    (hnd : (l.map fun i => i.created).Nodup)
    (h₁ : sortSliceSpec l l₁) (h₂ : sortSliceSpec l l₂) : l₁ = l₂ := by
  haveI : IsAntisymm ImageInfo (fun a b => b.created < a.created) :=
    ⟨fun a b hab hba => absurd (hab.trans hba) (lt_irrefl _)⟩
  have key : ∀ lx : List ImageInfo, lx.Perm l →
      lx.Sorted (fun a b => b.created ≤ a.created) →
      lx.Sorted (fun a b => b.created < a.created) := by
    intro lx hp hs
    have hnd' : (lx.map fun i => i.created).Nodup :=
      ((hp.map _).nodup_iff).mpr hnd
    have hne : lx.Pairwise fun a b => a.created ≠ b.created :=
      List.pairwise_map.mp hnd'
    exact (hs.and hne).imp fun hab => lt_of_le_of_ne hab.1 hab.2.symm
  exact List.eq_of_perm_of_sorted (h₁.1.trans h₂.1.symm)
    (key l₁ h₁.1 h₁.2) (key l₂ h₂.1 h₂.2)

/-- C5 witness. -/
theorem c5_distinct_created_unique_output_witness :
    [imgNew, imgOld] = [imgNew, imgOld] :=
  c5_distinct_created_unique_output [imgOld, imgNew] [imgNew, imgOld]
    [imgNew, imgOld] (by decide) ⟨by decide, by decide⟩ ⟨by decide, by decide⟩

/-! ## C6 -/

/-- The resolution loop yields exactly one image per tag whose digest
lookup succeeded. -/
theorem resolveImages_length (repo : String) (env : CleanupEnv)
    (tags : List String) :
    (resolveImages repo env tags).length =
      tags.countP fun t => isOkB (env.digest t) := by
  induction tags with
  | nil => rfl
  | cons t ts ih =>
    unfold resolveImages at ih ⊢
    rw [List.filterMap_cons, List.countP_cons]
    cases h : env.digest t with
    | error e => simp [h, isOkB, ih]
    | ok d => simp [h, isOkB, ih]

/-- Every resolved image carries a tag from the tag list whose digest
lookup succeeded. -/
theorem mem_resolveImages (repo : String) (env : CleanupEnv)
    {img : ImageInfo} {tags : List String}
    (h : img ∈ resolveImages repo env tags) :
    img.tag ∈ tags ∧ isOkB (env.digest img.tag) = true := by
  unfold resolveImages at h
  obtain ⟨t, ht, hf⟩ := List.mem_filterMap.mp h
  cases hd : env.digest t with
  | error e =>
    rw [hd] at hf
    simp at hf
  | ok d =>
    rw [hd] at hf
    simp only [Option.some.injEq] at hf
    subst hf
    exact ⟨ht, by simp [hd, isOkB]⟩

/-- C6: with a valid retention count, the run reaches the retention
step, the kept and planned-for-deletion images together number exactly
the tags whose digest resolution succeeded, and every planned image
stems from a successfully resolved tag — a failed digest lookup
excludes its tag from the plan without aborting the repository
(src/main.go:302-323, 341-344). -/
theorem c6_plan_covers_resolved (repo : String) (env : CleanupEnv)
    (keepLast : Int) (sortImpl : List ImageInfo → List ImageInfo)
    (tags : List String) (htags : env.tags = .ok tags) (hk : 0 ≤ keepLast)
    (hgt : keepLast < (tags.length : Int))
    (hsort : sortSliceSpec (resolveImages repo env tags)
      (sortImpl (resolveImages repo env tags))) :
    ∃ keep toDelete att p,
      cleanupRepositoryWith repo env keepLast sortImpl =
        .run keep toDelete att p ∧
      keep.length + toDelete.length =
        tags.countP (fun t => isOkB (env.digest t)) ∧
      ∀ img, img ∈ keep ++ toDelete →
        isOkB (env.digest img.tag) = true ∧ img.tag ∈ tags := by
  have hperm := hsort.1
  have hlen : (sortImpl (resolveImages repo env tags)).length =
      (resolveImages repo env tags).length := hperm.length_eq
  have hmem : ∀ img, img ∈ sortImpl (resolveImages repo env tags) →
      isOkB (env.digest img.tag) = true ∧ img.tag ∈ tags := by
    intro img hi
    have := mem_resolveImages repo env (hperm.mem_iff.mp hi)
    exact ⟨this.2, this.1⟩
  have hns : ¬ ((tags.length : Int) ≤ keepLast) := by omega
  unfold cleanupRepositoryWith
  rw [htags]
  by_cases hc : keepLast < ((resolveImages repo env tags).length : Int)
  · have hslice : goSliceFrom keepLast (sortImpl (resolveImages repo env tags)) =
        some ((sortImpl (resolveImages repo env tags)).drop keepLast.toNat) := by
      unfold goSliceFrom
      rw [if_pos ⟨hk, by omega⟩]
    refine ⟨retentionKeep keepLast (sortImpl (resolveImages repo env tags)),
      (sortImpl (resolveImages repo env tags)).drop keepLast.toNat,
      (deletePhase env.delete
        ((sortImpl (resolveImages repo env tags)).drop keepLast.toNat)).1,
      (deletePhase env.delete
        ((sortImpl (resolveImages repo env tags)).drop keepLast.toNat)).2,
      ?_, ?_, ?_⟩
    · simp [hns, hc, hslice]
    · unfold retentionKeep
      rw [List.length_take, List.length_drop]
      rw [← resolveImages_length repo env tags]
      omega
    · intro img hi
      rcases List.mem_append.mp hi with hkp | hdl
      · exact hmem img (List.take_subset _ _ hkp)
      · exact hmem img (List.drop_subset _ _ hdl)
  · refine ⟨sortImpl (resolveImages repo env tags), [], [], false, ?_, ?_, ?_⟩
    · simp [hns, hc]
    · rw [← resolveImages_length repo env tags]
      simp [hlen]
    · intro img hi
      rw [List.append_nil] at hi
      exact hmem img hi

/-- Cleanup environment for the C6 witness: digest resolution fails for
tag `b` only. -/
def envDigestGap : CleanupEnv :=
  { tags := .ok ["a", "b", "c"],
    digest := fun t => if t = "b" then .error "404" else .ok ("sha256:" ++ t ++ "00000000000"),
    created := fun t => if t = "a" then .ok 5 else .ok 3,
    now := 9,
    delete := fun _ => .ok () }

/-- C6 witness. -/
theorem c6_plan_covers_resolved_witness :
    ∃ keep toDelete att p,
      cleanupRepositoryWith "r" envDigestGap 1 id = .run keep toDelete att p ∧
      keep.length + toDelete.length =
        (["a", "b", "c"].countP fun t => isOkB (envDigestGap.digest t)) ∧
      ∀ img, img ∈ keep ++ toDelete →
        isOkB (envDigestGap.digest img.tag) = true ∧ img.tag ∈ ["a", "b", "c"] :=
  c6_plan_covers_resolved "r" envDigestGap 1 id ["a", "b", "c"] rfl
    (by decide) (by decide) ⟨by decide, by decide⟩

/-! ## C7 -/

/-- The deletion loop attempts every planned image in order, whatever
each `DeleteManifest` call returns, as long as no digest is shorter
than 12 bytes (src/main.go:346-354). -/
theorem deletePhase_covers (del : String → Except String Unit)
    (l : List ImageInfo) :
    (∀ img ∈ l, 12 ≤ img.digest.length) →
    (deletePhase del l).1.map Prod.fst = l ∧ (deletePhase del l).2 = false := by
  induction l with
  | nil => exact fun _ => ⟨rfl, rfl⟩
  | cons img rest ih =>
    intro h
    have h12 := h img (by simp)
    obtain ⟨ih1, ih2⟩ := ih fun i hi => h i (by simp [hi])
    unfold deletePhase
    rw [if_pos h12]
    exact ⟨by simp [ih1], by simpa using ih2⟩

/-- C7: no `DeleteManifest` failure aborts anything — the deletion loop
attempts every image of the `Delete` set regardless of the per-image
results (any error classification included), and the `main` loop
(src/main.go:391-395) goes on to process every repository as long as no
repository panics. -/
theorem c7_failures_do_not_abort (del : String → Except String Unit)
    (toDelete : List ImageInfo)
    (hlen : ∀ img ∈ toDelete, 12 ≤ img.digest.length)
    (cleanup : String → CleanupResult) (repos : List String)
    (hnp : ∀ r ∈ repos, resultPanicked (cleanup r) = false) :
    ((deletePhase del toDelete).1.map Prod.fst = toDelete ∧
      (deletePhase del toDelete).2 = false) ∧
    (runAll cleanup repos).map Prod.fst = repos := by
  refine ⟨deletePhase_covers del toDelete hlen, ?_⟩
  induction repos with
  | nil => rfl
  | cons r rs ih =>
    have hr := hnp r (by simp)
    have ih' := ih fun x hx => hnp x (by simp [hx])
    unfold runAll
    simp [hr, ih']

/-- Images for the C7 witness whose deletions all fail. -/
def imgDelA : ImageInfo :=
  { repository := "r", tag := "a", digest := "sha256:aaaaaaaaaaaa", created := 2 }

/-- Second image for the C7 witness. -/
def imgDelB : ImageInfo :=
  { repository := "r", tag := "b", digest := "sha256:bbbbbbbbbbbb", created := 1 }

/-- C7 witness: every deletion fails with a classified error, yet both
images are attempted and both repositories processed. -/
theorem c7_failures_do_not_abort_witness :
    ((deletePhase (fun _ => .error "манифест не найден (статус 404): x")
        [imgDelA, imgDelB]).1.map Prod.fst = [imgDelA, imgDelB] ∧
      (deletePhase (fun _ => .error "манифест не найден (статус 404): x")
        [imgDelA, imgDelB]).2 = false) ∧
    (runAll (fun _ => .run [] [] [] false) ["r1", "r2"]).map Prod.fst =
      ["r1", "r2"] :=
  c7_failures_do_not_abort (fun _ => .error "манифест не найден (статус 404): x")
    [imgDelA, imgDelB] (by decide) (fun _ => .run [] [] [] false) ["r1", "r2"]
    (by decide)

/-! ## C8 -/

/-- A string appended at the end of a message appears in the message's
character list. -/
theorem data_sub_of_append (pre body : String) :
    body.data <:+: (pre ++ body).data :=
  ⟨pre.data, [], by simp⟩

/-- C8 (counterexample): the 405 delete error carries a fixed message
without the response body (src/main.go:262-273), and the non-200
catalog error is built from the status code alone (src/main.go:107-109)
— with response body `"boom"`, neither classified error preserves the
body text. -/
theorem c8_counterexample :
    deleteManifestResult 405 "boom" =
      .error "удаление не поддерживается Registry (статус 405)" ∧
    ¬ ("boom".data <:+:
      "удаление не поддерживается Registry (статус 405)".data) ∧
    getRepositoriesResult 500 [] = .error (getRepositoriesErrMsg 500) ∧
    ¬ ("boom".data <:+: (getRepositoriesErrMsg 500).data) := by
  refine ⟨rfl, by decide, rfl, by decide⟩

/-- C8 (amended): error classification is status-code driven, but only
`DeleteManifest`'s 404, 401, 403 and generic branches preserve the
response body text; the 405 branch returns a fixed remediation message
without the body, and the catalog and manifest-digest operations build
their errors from the status code alone, never reading the body. -/
theorem c8_body_preserved_except_405_and_lists (status : Nat) (body : String)
    (h200 : status ≠ 200) (h202 : status ≠ 202) :
    (status ≠ 405 → ∃ m, deleteManifestResult status body = .error m ∧
      body.data <:+: m.data) ∧
    (deleteManifestResult 405 body =
      .error "удаление не поддерживается Registry (статус 405)") ∧
    (getRepositoriesResult status [] = .error (getRepositoriesErrMsg status)) ∧
    (∀ repo tag hd, getManifestDigest status hd repo tag =
      .error (getManifestDigestErrMsg status repo tag)) := by
  refine ⟨?_, rfl, ?_, ?_⟩
  · intro h405
    refine ⟨classifyDeleteError status body, ?_, ?_⟩
    · unfold deleteManifestResult
      rw [if_neg]
      intro hc
      rcases hc with hc | hc
      · exact h202 hc
      · exact h200 hc
    · unfold classifyDeleteError
      rw [if_neg h405]
      by_cases h404 : status = 404
      · rw [if_pos h404]
        exact data_sub_of_append _ _
      · rw [if_neg h404]
        by_cases h401 : status = 401
        · rw [if_pos h401]
          exact data_sub_of_append _ _
        · rw [if_neg h401]
          by_cases h403 : status = 403
          · rw [if_pos h403]
            exact data_sub_of_append _ _
          · rw [if_neg h403]
            exact data_sub_of_append _ _
  · unfold getRepositoriesResult
    rw [if_neg h200]
  · intro repo tag hd
    unfold getManifestDigest
    rw [if_neg h200]

/-- C8 witness. -/
theorem c8_body_preserved_except_405_and_lists_witness :
    ((500 : Nat) ≠ 405 → ∃ m, deleteManifestResult 500 "boom" = .error m ∧
      "boom".data <:+: m.data) ∧
    (deleteManifestResult 405 "boom" =
      .error "удаление не поддерживается Registry (статус 405)") ∧
    (getRepositoriesResult 500 [] = .error (getRepositoriesErrMsg 500)) ∧
    (∀ repo tag hd, getManifestDigest 500 hd repo tag =
      .error (getManifestDigestErrMsg 500 repo tag)) :=
  c8_body_preserved_except_405_and_lists 500 "boom" (by decide) (by decide)

/-! ## C9 -/

/-- The deletion loop stops in a panic at the first image whose digest
is shorter than 12 bytes, after attempting exactly the images before
it; that image's `DeleteManifest` is never reached
(src/main.go:346-349). -/
theorem deletePhase_panics_at_short (del : String → Except String Unit)
    (img : ImageInfo) (hshort : img.digest.length < 12) :
    ∀ pre, (∀ p ∈ pre, 12 ≤ p.digest.length) → ∀ post,
      (deletePhase del (pre ++ img :: post)).2 = true ∧
      (deletePhase del (pre ++ img :: post)).1.map Prod.fst = pre := by
  intro pre
  induction pre with
  | nil =>
    intro _ post
    rw [List.nil_append]
    unfold deletePhase
    rw [if_neg (by omega)]
    exact ⟨rfl, rfl⟩
  | cons a rest ih =>
    intro h post
    have h12 := h a (by simp)
    obtain ⟨ih1, ih2⟩ := ih (fun q hq => h q (by simp [hq])) post
    rw [List.cons_append]
    unfold deletePhase
    rw [if_pos h12]
    exact ⟨by simpa using ih1, by simp [ih2]⟩

/-- C9: if an image whose digest has fewer than 12 characters reaches
the `Delete` set, `CleanupRepository` panics at the `img.Digest[:12]`
slice in the progress message before calling `DeleteManifest` for it —
and `GetManifestDigest` accepts any non-empty header value, imposing no
minimum length. -/
theorem c9_short_digest_panics (del : String → Except String Unit)
    (pre post : List ImageInfo) (img : ImageInfo)
    (hpre : ∀ p ∈ pre, 12 ≤ p.digest.length)
    (hshort : img.digest.length < 12) :
    ((deletePhase del (pre ++ img :: post)).2 = true ∧
      (deletePhase del (pre ++ img :: post)).1.map Prod.fst = pre) ∧
    ∀ repo tag hd : String, hd ≠ "" →
      getManifestDigest 200 hd repo tag = .ok hd := by
  refine ⟨deletePhase_panics_at_short del img hshort pre hpre post, ?_⟩
  intro repo tag hd hne
  unfold getManifestDigest
  rw [if_pos rfl, if_neg hne]

/-- An image whose digest — accepted by `GetManifestDigest` as
non-empty — has only three characters. -/
def imgShortDigest : ImageInfo :=
  { repository := "r", tag := "t", digest := "abc", created := 1 }

/-- C9 witness. -/
theorem c9_short_digest_panics_witness :
    ((deletePhase (fun _ => .ok ()) ([] ++ imgShortDigest :: [])).2 = true ∧
      (deletePhase (fun _ => .ok ())
        ([] ++ imgShortDigest :: [])).1.map Prod.fst = []) ∧
    ∀ repo tag hd : String, hd ≠ "" →
      getManifestDigest 200 hd repo tag = .ok hd :=
  c9_short_digest_panics (fun _ => .ok ()) [] [] imgShortDigest (by decide)
    (by decide)

/-! ## C10 -/

/-- C10: a schema-v1 history head that is valid JSON without a
`created` field, or a schema-v2 config blob that is valid JSON without
a `created` field, makes `GetImageCreated` return the zero timestamp as
a successful result (src/main.go:183-191, 210-226) — no fallthrough to
the next strategy or to the synthetic fallback — and a zero-timestamp
image ranks strictly older than every positively-dated image, landing
in the `Delete` set whenever the retention split deletes anything. -/
theorem c10_missing_created_is_zero (env : ImageCreatedEnv)
    (body body2 : Json) (s dg : String)
    (gs cfs : List (String × Json)) (hist : List Json)
    (s1 : Nat) (b1 : Option Json)
    (images sorted : List ImageInfo) (img0 : ImageInfo) (keepLast : Int) :
    (env.v1Resp = .response 200 (some body) →
      decodeManifestResponse body = .ok (Json.jsonStr s (Json.obj gs) :: hist) →
      lookupField gs "created" = none →
      getImageCreated env = .ok 0) ∧
    (lookupField cfs "created" = none → lookupField cfs "config" = none →
      decodeConfigResponse (Json.obj cfs) = .ok 0) ∧
    (env.v1Resp = .response s1 b1 → v1Extract s1 b1 = none →
      env.v2Resp = .response 200 (some body2) →
      decodeManifestV2 body2 = .ok dg → dg ≠ "" →
      env.blobResp dg = .response 200 (some (Json.obj cfs)) →
      lookupField cfs "created" = none → lookupField cfs "config" = none →
      getImageCreated env = .ok 0) ∧
    (∀ t : GoTime, 0 < t → timeAfter t 0 = true) ∧
    (sortSliceSpec images sorted → img0 ∈ images → img0.created = 0 →
      (∀ b ∈ images, b ≠ img0 → 0 < b.created) →
      0 ≤ keepLast → keepLast < (images.length : Int) →
      ∃ toDelete, goSliceFrom keepLast sorted = some toDelete ∧
        img0 ∈ toDelete) := by
  refine ⟨?_, ?_, ?_, ?_, ?_⟩
  · intro h1 hdec hnc
    simp [getImageCreated, h1, v1Extract, hdec, unmarshalV1CompatStr,
      decodeV1Compat, hnc]
  · intro hnc hncfg
    simp [decodeConfigResponse, hnc, hncfg]
  · intro h1 hv1 h2 hm2 hdg hblob hnc hncfg
    simp [getImageCreated, h1, hv1, h2, v2Extract, hm2, hdg, hblob,
      decodeConfigResponse, hnc, hncfg]
  · intro t ht
    simp [timeAfter, ht]
  · intro hsort hmem hzero hdated hk hlt
    obtain ⟨hperm, hsorted⟩ := hsort
    have hle : sorted.length = images.length := hperm.length_eq
    refine ⟨sorted.drop keepLast.toNat, ?_, ?_⟩
    · unfold goSliceFrom
      rw [if_pos ⟨hk, by omega⟩]
    · have hms : img0 ∈ sorted := hperm.mem_iff.mpr hmem
      have hsplit := List.take_append_drop keepLast.toNat sorted
      have hpw : List.Pairwise (fun a b => b.created ≤ a.created)
          (sorted.take keepLast.toNat ++ sorted.drop keepLast.toNat) := by
        rw [hsplit]
        exact hsorted
      rcases List.mem_append.mp (by rw [hsplit]; exact hms) with htake | hdrop
      · have hne : sorted.drop keepLast.toNat ≠ [] := by
          have hld : (sorted.drop keepLast.toNat).length =
              sorted.length - keepLast.toNat := List.length_drop ..
          intro hE
          rw [hE] at hld
          simp at hld
          omega
        obtain ⟨b, hb⟩ := List.exists_mem_of_ne_nil _ hne
        have hble : b.created ≤ img0.created :=
          (List.pairwise_append.mp hpw).2.2 img0 htake b hb
        by_cases hbimg : b = img0
        · rw [hbimg] at hb
          exact hb
        · have hbim : b ∈ images := hperm.mem_iff.mp (List.drop_subset _ _ hb)
          have hbpos := hdated b hbim hbimg
          rw [hzero] at hble
          exact absurd hbpos (not_lt.mpr hble)
      · exact hdrop

/-- Schema-v1 manifest body whose single history entry is valid JSON
(an object with only an `architecture` field) lacking `created`. -/
def bodyNoCreated : Json :=
  .obj [("schemaVersion", .num 1),
        ("history", .arr [.obj [("v1Compatibility",
            .jsonStr "x" (.obj [("architecture", .str "amd64")]))]])]

/-- Environment serving `bodyNoCreated` as the schema-v1 manifest. -/
def envNoCreated : ImageCreatedEnv :=
  { v1Resp := .response 200 (some bodyNoCreated), v2Resp := .failure,
    blobResp := fun _ => .failure, now := 7 }

/-- An image with the zero creation timestamp. -/
def imgZero : ImageInfo :=
  { repository := "r", tag := "z", digest := "sha256:zzzzzzzzzzzz", created := 0 }

/-- C10 witness: the concrete manifest yields the zero timestamp, and
the zero-timestamp image lands in the `Delete` set next to a dated
image with `keepLast = 1`. -/
theorem c10_missing_created_is_zero_witness :
    getImageCreated envNoCreated = .ok 0 ∧
    ∃ toDelete, goSliceFrom 1 [imgNew, imgZero] = some toDelete ∧
      imgZero ∈ toDelete :=
  ⟨(c10_missing_created_is_zero envNoCreated bodyNoCreated .null "x" "d"
      [("architecture", .str "amd64")] [] [] 0 none [imgZero, imgNew]
      [imgNew, imgZero] imgZero 1).1 rfl rfl rfl,
   (c10_missing_created_is_zero envNoCreated bodyNoCreated .null "x" "d"
      [("architecture", .str "amd64")] [] [] 0 none [imgZero, imgNew]
      [imgNew, imgZero] imgZero 1).2.2.2.2 ⟨by decide, by decide⟩ (by decide)
      (by decide) (by decide) (by decide) (by decide)⟩
